import Mathlib

/-!
Shallow embedding of the sales-ledger web application (`src/app.py`) and
proofs about its reconciliation, aggregation and alerting logic.

Monetary amounts (Python floats) are modelled as rationals, exact decimal
arithmetic being the intended reading of the monetary formulas.  Dates are
modelled as proleptic-Gregorian `year/month/day` triples with the ordinal
and ISO-calendar computations transcribed from CPython's `datetime` module,
which the source calls via `date.isocalendar`, date comparison and
`timedelta` arithmetic.
-/

/-- Calendar date, as CPython `datetime.date` (year/month/day). -/
structure Date where
  year : ℕ
  month : ℕ
  day : ℕ
deriving DecidableEq

/-- Model of the `Sale` ORM row (`class Sale`, src/app.py lines 91-114).
`date` is `nullable=False` in the schema, hence not an `Option`;
`payment_due_date` is nullable. -/
structure Sale where
  date : Date
  client_id : Option ℕ
  name : String
  product : String
  status : String
  cost_per_unit : ℚ
  price_per_unit : ℚ
  quantity : ℤ
  total : ℚ
  profit : ℚ
  comment : String
  user_id : Option ℕ
  payment_due_date : Option Date
  payment_reminder_sent : Bool
deriving DecidableEq

/-- Model of the `Expense` ORM row (src/app.py lines 117-126). -/
structure Expense where
  date : Date
  description : String
  category : String
  amount : ℚ
deriving DecidableEq

/-- The raw form input of the sale-creation POST handler (`ventas`,
src/app.py lines 689-719), after parsing: `name` and `product` are the
already-resolved client name (line 702-706) and product text (line 708-710). -/
structure SaleInput where
  date : Date
  client_id : Option ℕ
  name : String
  product : String
  status : String
  cost_per_unit : ℚ
  price_per_unit : ℚ
  quantity : ℤ
  comment : String
  payment_due_date : Option Date
deriving DecidableEq

deriving instance DecidableEq for Except

/-- The validation/derivation part of the `ventas` POST handler
(src/app.py lines 721-749): the four `raise ValueError` guards followed by
the computation of `total`/`profit` and construction of the `Sale` row.
A raised `ValueError` is modelled as `Except.error` with the message. -/
def createSale (uid : Option ℕ) (i : SaleInput) : Except String Sale :=
  if i.name = "" then
    Except.error "El nombre del cliente es obligatorio."
  else if i.product = "" then
    Except.error "Debes seleccionar o escribir un producto."
  else if i.quantity ≤ 0 then
    Except.error "La cantidad debe ser mayor que cero."
  else if i.status = "Pendiente" ∧ i.payment_due_date = none then
    Except.error "Debes indicar una fecha de pago para las ventas pendientes."
  else
    Except.ok
      { date := i.date
        client_id := i.client_id
        name := i.name
        product := i.product
        status := i.status
        cost_per_unit := i.cost_per_unit
        price_per_unit := i.price_per_unit
        quantity := i.quantity
        total := i.price_per_unit * (i.quantity : ℚ)
        profit := (i.price_per_unit - i.cost_per_unit) * (i.quantity : ℚ)
        comment := i.comment
        user_id := uid
        payment_due_date := if i.status = "Pendiente" then i.payment_due_date else none
        payment_reminder_sent := false }

/-- State effect of the `ventas` POST handler on the persisted ledger:
on success the new row is committed (`db.session.add` / `commit`,
lines 750-751), on failure the transaction is rolled back
(`db.session.rollback`, line 754) and the ledger is unchanged. -/
def ventasPost (st : List Sale) (uid : Option ℕ) (i : SaleInput) : List Sale :=
  match createSale uid i with
  | Except.ok s => st ++ [s]
  | Except.error _ => st

/-- The `mark_sale_paid` handler's mutation of the row
(src/app.py lines 848-850). -/
def markPaidSale (s : Sale) : Sale :=
  { s with status := "Pagado", payment_due_date := none, payment_reminder_sent := false }

/-- Sales reachable through the ledger-mutating operations of the
application: creation via the `ventas` POST handler and the
`mark_sale_paid` transition (the application has no sale-edit handler;
deletion removes rows and produces none). -/
inductive ReachableSale : Sale → Prop where
  | created (uid : Option ℕ) (i : SaleInput) (s : Sale)
      (h : createSale uid i = Except.ok s) : ReachableSale s
  | paid (s : Sale) (h : ReachableSale s) : ReachableSale (markPaidSale s)

/-- Sum of the `total` column over a list of sales. -/
def sumTotal (sales : List Sale) : ℚ := (sales.map (fun s => s.total)).sum

/-- Sum of the `profit` column over a list of sales. -/
def sumProfit (sales : List Sale) : ℚ := (sales.map (fun s => s.profit)).sum

/-- Minimum profit margin for the price calculator (src/app.py line 53). -/
def MIN_MARGIN_PERCENT : ℚ := 7

/-- Output figures of the price calculator (src/app.py lines 542-545). -/
structure CalcResult where
  price_result : ℚ
  profit_unit : ℚ
  profit_total : ℚ
  margin_used : ℚ
deriving DecidableEq

/-- The calculator branch of the `productos` handler (src/app.py lines
522-545): a margin below `MIN_MARGIN_PERCENT` is silently raised to the
floor (lines 534-535), then cost and quantity are validated and the price
and profit figures derived.  A raised `ValueError` is `Except.error`. -/
def priceFromCost (cost margin₀ : ℚ) (quantity : ℤ) : Except String CalcResult :=
  let margin := if margin₀ < MIN_MARGIN_PERCENT then MIN_MARGIN_PERCENT else margin₀
  if cost ≤ 0 then
    Except.error "El costo debe ser mayor que cero."
  else if quantity ≤ 0 then
    Except.error "La cantidad debe ser mayor que cero."
  else
    let price_result := cost * (1 + margin / 100)
    let profit_unit := price_result - cost
    Except.ok
      { price_result := price_result
        profit_unit := profit_unit
        profit_total := profit_unit * (quantity : ℚ)
        margin_used := if 0 < cost then profit_unit / cost * 100 else 0 }

/-- Figures computed by the `flujo` handler (src/app.py lines 972-984). -/
structure FlujoSummary where
  total_ingresos : ℚ
  total_ganancia : ℚ
  total_gastos : ℚ
  total_reinv : ℚ
  total_egresos : ℚ
  neto : ℚ
  ahorro_objetivo : ℚ
  ahorro_real : ℚ
  ahorro_faltante : ℚ
  meta_cumplida : Bool
deriving DecidableEq

/-- Cash-flow reconciliation of the `flujo` handler over the (scope- and
range-filtered) sales and expense collections (src/app.py lines 972-984);
`0.10` is the fixed 10 percent savings policy, written `10 / 100` here. -/
def flujoSummary (sales : List Sale) (expenses : List Expense) : FlujoSummary :=
  let total_ingresos := sumTotal sales
  let total_ganancia := sumProfit sales
  let total_gastos :=
    ((expenses.filter (fun e => e.category = "Gasto")).map (fun e => e.amount)).sum
  let total_reinv :=
    ((expenses.filter (fun e => e.category = "Reinversión")).map (fun e => e.amount)).sum
  let total_egresos := total_gastos + total_reinv
  let neto := total_ganancia - total_egresos
  let ahorro_objetivo := total_ganancia * (10 / 100)
  let ahorro_real := max neto 0
  let ahorro_faltante := max (ahorro_objetivo - ahorro_real) 0
  let meta_cumplida := decide (0 < total_ganancia) && decide (ahorro_objetivo ≤ ahorro_real)
  { total_ingresos := total_ingresos
    total_ganancia := total_ganancia
    total_gastos := total_gastos
    total_reinv := total_reinv
    total_egresos := total_egresos
    neto := neto
    ahorro_objetivo := ahorro_objetivo
    ahorro_real := ahorro_real
    ahorro_faltante := ahorro_faltante
    meta_cumplida := meta_cumplida }

/-- Concrete sale-creation input used by witnesses (cost 100, price 150,
quantity 2, status Paid). -/
def demoInputPaid : SaleInput :=
  { date := ⟨2024, 3, 15⟩
    client_id := none
    name := "Ana"
    product := "Camisa"
    status := "Pagado"
    cost_per_unit := 100
    price_per_unit := 150
    quantity := 2
    comment := ""
    payment_due_date := none }

/-- Pending-without-due-date input used to witness C2. -/
def demoInputPendingNoDue : SaleInput :=
  { demoInputPaid with status := "Pendiente", payment_due_date := none }

/-- Minimal ledger row carrying a given profit, used as aggregator input
by witnesses. -/
def plainSale (p : ℚ) : Sale :=
  { date := ⟨2024, 3, 15⟩
    client_id := none
    name := "Ana"
    product := "Camisa"
    status := "Pagado"
    cost_per_unit := 0
    price_per_unit := 0
    quantity := 1
    total := 0
    profit := p
    comment := ""
    user_id := none
    payment_due_date := none
    payment_reminder_sent := false }

/-- Sales with profits 50, -10 and 30 (spec scenario 5). -/
def demoSales : List Sale := [plainSale 50, plainSale (-10), plainSale 30]

/-- Expenses 20 (operating) and 5 (reinvestment) (spec scenario 5). -/
def demoExpenses : List Expense :=
  [⟨⟨2024, 3, 15⟩, "luz", "Gasto", 20⟩, ⟨⟨2024, 3, 16⟩, "maquina", "Reinversión", 5⟩]

/-- Leap-year test (CPython `datetime._is_leap`). -/
def isLeap (y : ℕ) : Bool := y % 4 == 0 && (y % 100 != 0 || y % 400 == 0)

/-- Days in the year before the first of each month in a non-leap year
(CPython `datetime._DAYS_BEFORE_MONTH`). -/
def daysBeforeMonth (m : ℕ) : ℕ :=
  match m with
  | 1 => 0 | 2 => 31 | 3 => 59 | 4 => 90 | 5 => 120 | 6 => 151
  | 7 => 181 | 8 => 212 | 9 => 243 | 10 => 273 | 11 => 304 | 12 => 334
  | _ => 0

/-- Days before January 1 of the year (CPython `datetime._days_before_year`). -/
def daysBeforeYear (y : ℕ) : ℕ :=
  let n := y - 1
  365 * n + n / 4 - n / 100 + n / 400

/-- Proleptic-Gregorian ordinal of a date (CPython `date.toordinal`):
January 1 of year 1 is ordinal 1.  Kept as an integer so that the
`timedelta` arithmetic and floor divisions below stay exact. -/
def toordinal (d : Date) : ℤ :=
  ((daysBeforeYear d.year + daysBeforeMonth d.month +
    (if 2 < d.month && isLeap d.year then 1 else 0) + d.day : ℕ) : ℤ)

/-- Ordinal of the Monday starting ISO week 1 of the year (CPython
`datetime._isoweek1monday`; `THURSDAY = 3`). -/
def isoweek1monday (year : ℕ) : ℤ :=
  let firstday := toordinal ⟨year, 1, 1⟩
  let firstweekday := (firstday + 6) % 7
  let week1monday := firstday - firstweekday
  if 3 < firstweekday then week1monday + 7 else week1monday

/-- ISO year and ISO week of a date (first two components of CPython
`date.isocalendar`); `/` on integers is floor division for the positive
divisor 7, as Python's `divmod`. -/
def isocalendarYW (dt : Date) : ℕ × ℕ :=
  let today := toordinal dt
  let week1monday := isoweek1monday dt.year
  let week := (today - week1monday) / 7
  if week < 0 then
    let year := dt.year - 1
    let week1monday₂ := isoweek1monday year
    (year, ((today - week1monday₂) / 7 + 1).toNat)
  else if 52 ≤ week then
    if isoweek1monday (dt.year + 1) ≤ today then (dt.year + 1, 1)
    else (dt.year, (week + 1).toNat)
  else (dt.year, (week + 1).toNat)

/-- Zero-padded two-digit decimal rendering of the ISO week, the Python
format spec `02d` (the week number is always between 1 and 53). -/
def pad2 (w : ℕ) : String := if w < 10 then "0" ++ toString w else toString w

/-- The weekly grouping key built by the f-string at src/app.py line 1177:
the ISO year, a literal `-W`, and the two-digit ISO week. -/
def weekKey (d : Date) : String :=
  let yw := isocalendarYW d
  toString yw.1 ++ "-W" ++ pad2 yw.2

/-- One step of the `defaultdict(float)` accumulation `dict[key] += p`:
an existing key accumulates in place, a new key is appended at the end
(Python dicts preserve insertion order). -/
def addProfit {α : Type} [DecidableEq α] (acc : List (α × ℚ)) (k : α) (p : ℚ) :
    List (α × ℚ) :=
  match acc with
  | [] => [(k, p)]
  | (k₀, v) :: rest => if k₀ = k then (k₀, v + p) :: rest else (k₀, v) :: addProfit rest k p

/-- The `for s in sales: dict[key(s)] += float(s.profit or 0)` loops of
the dashboard (src/app.py lines 1133-1145, 1151-1153 and 1161-1178),
threaded through an explicit accumulator. -/
def groupProfitAux {α : Type} [DecidableEq α] (key : Sale → α) :
    List Sale → List (α × ℚ) → List (α × ℚ)
  | [], acc => acc
  | s :: rest, acc => groupProfitAux key rest (addProfit acc (key s) s.profit)

/-- Grouping of sale profits by a key, starting from the empty dict. -/
def groupProfit {α : Type} [DecidableEq α] (key : Sale → α) (sales : List Sale) :
    List (α × ℚ) :=
  groupProfitAux key sales []

/-- Order used by `sorted(items, key=lambda x: x[1], reverse=True)`
(src/app.py line 1155): descending by accumulated profit.  Python's sort
is stable, and `List.insertionSort` with this relation is the stable
descending sort, hence extensionally the same function. -/
def byProfitDesc (a b : String × ℚ) : Prop := b.2 ≤ a.2

instance : DecidableRel byProfitDesc :=
  fun a b => inferInstanceAs (Decidable (b.2 ≤ a.2))

instance : IsTotal (String × ℚ) byProfitDesc := ⟨fun a b => le_total b.2 a.2⟩

instance : IsTrans (String × ℚ) byProfitDesc := ⟨fun _ _ _ hab hbc => le_trans hbc hab⟩

/-- Order used by `sorted(profit_by_week.items(), key=lambda x: x[0])`
(src/app.py line 1180): ascending lexicographic on the key string. -/
def byKeyAsc (a b : String × ℚ) : Prop := a.1 ≤ b.1

instance : DecidableRel byKeyAsc :=
  fun a b => inferInstanceAs (Decidable (a.1 ≤ b.1))

instance : IsTotal (String × ℚ) byKeyAsc := ⟨fun a b => le_total a.1 b.1⟩

instance : IsTrans (String × ℚ) byKeyAsc := ⟨fun _ _ _ hab hbc => le_trans hab hbc⟩

/-- Python `round(v, 2)` on the idealized (exact-decimal) reading of the
stored amounts: round to two decimal places with ties going to the even
hundredth (banker's rounding, as Python `round`). -/
def round2 (q : ℚ) : ℚ :=
  let scaled := q * 100
  let f := ⌊scaled⌋
  let r := scaled - (f : ℚ)
  let n := if r < 1 / 2 then f
    else if 1 / 2 < r then f + 1
    else if f % 2 = 0 then f else f + 1
  (n : ℚ) / 100

/-- A rational is a whole number of cents. -/
def IsCent (q : ℚ) : Prop := ∃ n : ℤ, q = (n : ℚ) / 100

/-- Top products by accumulated profit (src/app.py lines 1150-1156):
group by product, sort descending by the summed profit, keep the first
five pairs. -/
def topItems (sales : List Sale) : List (String × ℚ) :=
  (List.insertionSort byProfitDesc (groupProfit (fun s => s.product) sales)).take 5

/-- Chart labels `top_labels` (src/app.py line 1157). -/
def top_labels (sales : List Sale) : List String :=
  (topItems sales).map (fun x => x.1)

/-- Chart values `top_values` (src/app.py line 1158): rounded to 2 places. -/
def top_values (sales : List Sale) : List ℚ :=
  (topItems sales).map (fun x => round2 x.2)

/-- Weekly profit series sorted by key (src/app.py lines 1160-1180). -/
def weeksSorted (sales : List Sale) : List (String × ℚ) :=
  List.insertionSort byKeyAsc (groupProfit (fun s => weekKey s.date) sales)

/-- Chart labels `week_labels` (src/app.py line 1181). -/
def week_labels (sales : List Sale) : List String :=
  (weeksSorted sales).map (fun x => x.1)

/-- Chart values `week_values` (src/app.py line 1182): rounded to 2 places. -/
def week_values (sales : List Sale) : List ℚ :=
  (weeksSorted sales).map (fun x => round2 x.2)

/-- The count of distinct sale dates present, `num_dias = len(profit_by_day)`
(src/app.py lines 1133-1147). -/
def num_dias (sales : List Sale) : ℕ :=
  (groupProfit (fun s => s.date) sales).length

/-- `avg_daily_profit` (src/app.py line 1148): period profit divided by the
number of distinct dates carrying sales, or 0 when there is none. -/
def avg_daily_profit (sales : List Sale) : ℚ :=
  if 0 < num_dias sales then sumProfit sales / (num_dias sales : ℚ) else 0

/-- The dashboard's inclusive date-range filter (src/app.py lines
1113-1116); Python date comparison coincides with ordinal comparison. -/
def filterByRange (sales : List Sale) (d_from d_to : Option Date) : List Sale :=
  let q₁ := match d_from with
    | some d => sales.filter (fun s => toordinal d ≤ toordinal s.date)
    | none => sales
  match d_to with
  | some d => q₁.filter (fun s => toordinal s.date ≤ toordinal d)
  | none => q₁

/-- The dashboard's average daily profit for a requested date range:
the range only filters the rows (lines 1113-1116); the denominator is
`num_dias` (line 1148). -/
def dashboardAvgDailyProfit (sales : List Sale) (d_from d_to : Option Date) : ℚ :=
  avg_daily_profit (filterByRange sales d_from d_to)

/-- Definition following the words of claim C9 (and spec section 4.3,
explicit-range form), for comparison with the code:
`sum(profit) / max(dayCount, 1)` with
`dayCount = (rangeEnd - rangeStart).days + 1`. -/
def specAvgDailyProfit (sales : List Sale) (rangeStart rangeEnd : Date) : ℚ :=
  sumProfit sales / ((max (toordinal rangeEnd - toordinal rangeStart + 1) 1 : ℤ) : ℚ)

/-- A dashboard alert; `count` and `amount` are the figures interpolated
into the message text (`len(...)` and the sum of `total`). -/
structure Alert where
  level : String
  title : String
  count : ℕ
  amount : ℚ
deriving DecidableEq

/-- Effective due date used by the alert scan: `s.payment_due_date or
s.date` (src/app.py line 1208) falls back to the sale date when the due
date is null (`date` itself is non-null in the schema, so the loop's
`if not d: continue` guard never fires). -/
def dueOrDate (s : Sale) : Date := s.payment_due_date.getD s.date

/-- The classification loop over pending sales (src/app.py lines
1207-1222): effective due date strictly before today is overdue
(`old_pending`); otherwise at most two days ahead is upcoming
(`upcoming_pending`). -/
def classifyPending (today : Date) : List Sale → List Sale × List Sale
  | [] => ([], [])
  | s :: rest =>
    let p := classifyPending today rest
    if toordinal (dueOrDate s) < toordinal today then (s :: p.1, p.2)
    else if toordinal (dueOrDate s) ≤ toordinal today + 2 then (p.1, s :: p.2)
    else p

/-- The overdue/upcoming alert emission (src/app.py lines 1198-1246) over
the Pending rows in scope: a danger alert if any sale is overdue, and a
warning alert only when some sale is upcoming AND none is overdue
(`if upcoming_pending and not old_pending`, line 1236). -/
def pendingAlerts (sales : List Sale) (today : Date) : List Alert :=
  let pending := sales.filter (fun s => s.status = "Pendiente")
  let old := (classifyPending today pending).1
  let upcoming := (classifyPending today pending).2
  (if old ≠ [] then
      [{ level := "danger", title := "Pagos vencidos", count := old.length,
         amount := sumTotal old }]
    else []) ++
  (if upcoming ≠ [] ∧ old = [] then
      [{ level := "warning", title := "Pagos próximos a vencer", count := upcoming.length,
         amount := sumTotal upcoming }]
    else [])

/-- Accumulated value stored under a key of the profit dict (0 when the
key is absent). -/
def assocValue {α : Type} [DecidableEq α] : List (α × ℚ) → α → ℚ
  | [], _ => 0
  | x :: rest, k => (if x.1 = k then x.2 else 0) + assocValue rest k

/-- The Pending rows in scope, `Sale.status == "Pendiente"` (line 1203). -/
def pendingOf (sales : List Sale) : List Sale :=
  sales.filter (fun s => s.status = "Pendiente")

/-- The overdue set as a filter: pending rows whose effective due date is
strictly before today. -/
def overdueOf (sales : List Sale) (today : Date) : List Sale :=
  (pendingOf sales).filter (fun s => toordinal (dueOrDate s) < toordinal today)

/-- The upcoming set as a filter: pending rows whose effective due date is
not past but within the next two days. -/
def upcomingOf (sales : List Sale) (today : Date) : List Sale :=
  (pendingOf sales).filter (fun s =>
    ¬ toordinal (dueOrDate s) < toordinal today ∧
      toordinal (dueOrDate s) ≤ toordinal today + 2)

/-- Pending sale with no explicit due date, entered the day before the
reference day, owing 100. -/
def demoOverdueNoDue : Sale :=
  { plainSale 0 with
    status := "Pendiente"
    date := ⟨2024, 3, 14⟩
    payment_due_date := none
    total := 100 }

/-- Sale with a sub-cent profit of 1/8, used against C6. -/
def centCounterSale : Sale := { plainSale (1 / 8) with date := ⟨2024, 1, 10⟩ }

/-- Sale with profit 6 on 2024-01-01, used against C9. -/
def c9Sale : Sale := { plainSale 6 with date := ⟨2024, 1, 1⟩ }

/-- Sum of `amount` over the two category filters equals the sum over all
expenses when every expense belongs to one of the two categories. -/
theorem expense_category_partition (expenses : List Expense)
    (h : ∀ e ∈ expenses, e.category = "Gasto" ∨ e.category = "Reinversión") :
    ((expenses.filter (fun e => e.category = "Gasto")).map (fun e => e.amount)).sum +
      ((expenses.filter (fun e => e.category = "Reinversión")).map (fun e => e.amount)).sum =
      (expenses.map (fun e => e.amount)).sum := by
  induction expenses with
  | nil => simp
  | cons e rest ih =>
    have hrest : ∀ x ∈ rest, x.category = "Gasto" ∨ x.category = "Reinversión" :=
      fun x hx => h x (List.mem_cons_of_mem _ hx)
    rcases h e (List.mem_cons_self _ _) with hc | hc <;>
      simp [List.filter_cons, hc, ← ih hrest] <;> ring

/-- Claim C1: every sale accepted (and hence persisted) by the creation
handler has `total = price_per_unit * quantity` and
`profit = (price_per_unit - cost_per_unit) * quantity`, exactly. -/
theorem C1_createSale_derived_fields (uid : Option ℕ) (i : SaleInput) (s : Sale)
    (h : createSale uid i = Except.ok s) :
    s.total = i.price_per_unit * (i.quantity : ℚ) ∧
      s.profit = (i.price_per_unit - i.cost_per_unit) * (i.quantity : ℚ) := by
  unfold createSale at h
  split_ifs at h
  all_goals first
    | exact Except.noConfusion h
    | (injection h with h; subst h; exact ⟨rfl, rfl⟩)

/-- Concrete instantiation of C1 (cost 100, price 150, quantity 2). -/
theorem C1_witness :
    ∃ s, createSale none demoInputPaid = Except.ok s ∧ s.total = 300 ∧ s.profit = 100 := by
  refine ⟨_, rfl, ?_⟩
  have h := C1_createSale_derived_fields none demoInputPaid _ rfl
  refine ⟨h.1.trans ?_, h.2.trans ?_⟩ <;> norm_num [demoInputPaid]

/-- Claim C2: (a) creating a Pending sale without a due date fails;
(b) a sale accepted with status Paid is stored with a null due date,
whatever due date the form carried; (c) `mark_sale_paid` sets status Paid
and clears the due date; (d) every reachable sale with status Paid has a
null due date. -/
theorem C2_paid_due_date_invariant :
    (∀ (uid : Option ℕ) (i : SaleInput), i.status = "Pendiente" →
        i.payment_due_date = none → ∃ msg, createSale uid i = Except.error msg) ∧
    (∀ (uid : Option ℕ) (i : SaleInput) (s : Sale), createSale uid i = Except.ok s →
        i.status = "Pagado" → s.payment_due_date = none) ∧
    (∀ s : Sale, (markPaidSale s).status = "Pagado" ∧
        (markPaidSale s).payment_due_date = none) ∧
    (∀ s : Sale, ReachableSale s → s.status = "Pagado" → s.payment_due_date = none) := by
  refine ⟨?_, ?_, ?_, ?_⟩
  · intro uid i hst hdue
    unfold createSale
    split_ifs with h1 h2 h3 h4
    all_goals first
      | exact ⟨_, rfl⟩
      | exact absurd ⟨hst, hdue⟩ h4
  · intro uid i s h hst
    unfold createSale at h
    split_ifs at h
    all_goals first
      | exact Except.noConfusion h
      | (injection h with h; subst h; rfl)
      | (injection h with h; subst h; simp_all)
  · intro s
    exact ⟨rfl, rfl⟩
  · intro s hreach
    induction hreach with
    | created uid i s h =>
      intro hst
      unfold createSale at h
      split_ifs at h
      all_goals first
        | exact Except.noConfusion h
        | (injection h with h; subst h; rfl)
        | (injection h with h; subst h; simp_all)
    | paid s _ _ =>
      intro _
      rfl

theorem C2_witness :
    (∃ msg, createSale none demoInputPendingNoDue = Except.error msg) ∧
    (∀ s : Sale, ReachableSale s → s.status = "Pagado" → s.payment_due_date = none) :=
  ⟨C2_paid_due_date_invariant.1 none demoInputPendingNoDue rfl rfl,
    C2_paid_due_date_invariant.2.2.2⟩

/-- Claim C3: the creation handler rejects an empty client name, an empty
product and a non-positive quantity, and on any such failure the persisted
ledger is unchanged (the transaction is rolled back, no partial write). -/
theorem C3_createSale_validation (uid : Option ℕ) (st : List Sale) (i : SaleInput)
    (h : i.name = "" ∨ i.product = "" ∨ i.quantity ≤ 0) :
    (∃ msg, createSale uid i = Except.error msg) ∧ ventasPost st uid i = st := by
  have herr : ∃ msg, createSale uid i = Except.error msg := by
    unfold createSale
    split_ifs with h1 h2 h3 h4
    · exact ⟨_, rfl⟩
    · exact ⟨_, rfl⟩
    · exact ⟨_, rfl⟩
    · exact ⟨_, rfl⟩
    · rcases h with h | h | h
      · exact absurd h h1
      · exact absurd h h2
      · exact absurd h h3
  refine ⟨herr, ?_⟩
  obtain ⟨msg, hmsg⟩ := herr
  unfold ventasPost
  rw [hmsg]

theorem C3_witness :
    (∃ msg, createSale none { demoInputPaid with name := "" } = Except.error msg) ∧
    ventasPost [] none { demoInputPaid with name := "" } = [] :=
  C3_createSale_validation none [] { demoInputPaid with name := "" } (Or.inl rfl)

/-- Claim C4 fails on the code: the calculator accepts a margin strictly
below the floor `MIN_MARGIN_PERCENT = 7` and silently clamps it, rather
than failing; at cost 100, margin 0, quantity 1 it succeeds with the
price computed from the clamped margin 7. -/
theorem C4_counterexample :
    (0 : ℚ) < MIN_MARGIN_PERCENT ∧
      priceFromCost 100 0 1 =
        Except.ok
          { price_result := 107, profit_unit := 7, profit_total := 7, margin_used := 7 } := by
  constructor
  · norm_num [MIN_MARGIN_PERCENT]
  · unfold priceFromCost MIN_MARGIN_PERCENT
    norm_num

/-- Claim C4 as amended: a margin below the configured floor is not
rejected; the computation is the same as with the floor margin (silent
clamp), and with positive cost and quantity it succeeds. -/
theorem C4_margin_clamped (cost margin : ℚ) (quantity : ℤ)
    (h : margin < MIN_MARGIN_PERCENT) :
    priceFromCost cost margin quantity = priceFromCost cost MIN_MARGIN_PERCENT quantity ∧
      (0 < cost → 0 < quantity →
        ∃ r, priceFromCost cost margin quantity = Except.ok r) := by
  constructor
  · unfold priceFromCost
    rw [if_pos h, if_neg (lt_irrefl MIN_MARGIN_PERCENT)]
  · intro hc hq
    unfold priceFromCost
    rw [if_pos h, if_neg (not_le.mpr hc), if_neg (not_le.mpr hq)]
    exact ⟨_, rfl⟩

theorem C4_witness :
    priceFromCost 50 3 2 = priceFromCost 50 MIN_MARGIN_PERCENT 2 ∧
      ∃ r, priceFromCost 50 3 2 = Except.ok r := by
  have h := C4_margin_clamped 50 3 2 (by norm_num [MIN_MARGIN_PERCENT])
  exact ⟨h.1, h.2 (by norm_num) (by norm_num)⟩

/-- Claim C8: the cash-flow reconciler satisfies, for any expense list
split into the Operating and Reinvestment categories,
`neto = sum(profit) - sum(amount)`, the 10 percent savings target,
`ahorro_real = max(neto, 0)`, the shortfall formula, and the target-met
condition `0 < sum(profit)` and `ahorro_objetivo ≤ ahorro_real`. -/
theorem C8_flujo_reconciliation (sales : List Sale) (expenses : List Expense)
    (h : ∀ e ∈ expenses, e.category = "Gasto" ∨ e.category = "Reinversión") :
    (flujoSummary sales expenses).neto =
        sumProfit sales - (expenses.map (fun e => e.amount)).sum ∧
    (flujoSummary sales expenses).ahorro_objetivo = sumProfit sales * (10 / 100) ∧
    (flujoSummary sales expenses).ahorro_real = max (flujoSummary sales expenses).neto 0 ∧
    (flujoSummary sales expenses).ahorro_faltante =
        max ((flujoSummary sales expenses).ahorro_objetivo -
          (flujoSummary sales expenses).ahorro_real) 0 ∧
    ((flujoSummary sales expenses).meta_cumplida = true ↔
        0 < sumProfit sales ∧
          (flujoSummary sales expenses).ahorro_objetivo ≤
            (flujoSummary sales expenses).ahorro_real) := by
  refine ⟨?_, rfl, rfl, rfl, ?_⟩
  · show sumProfit sales - _ = _
    rw [expense_category_partition expenses h]
  · show (decide _ && decide _) = true ↔ _
    simp [flujoSummary]

/-- Concrete instantiation of C8 (spec scenario 5: profits 50, -10, 30,
operating 20, reinvestment 5). -/
theorem C8_witness :
    (∀ e ∈ demoExpenses, e.category = "Gasto" ∨ e.category = "Reinversión") ∧
    (flujoSummary demoSales demoExpenses).neto =
      sumProfit demoSales - (demoExpenses.map (fun e => e.amount)).sum :=
  ⟨by decide, (C8_flujo_reconciliation demoSales demoExpenses (by decide)).1⟩

/-- Claim C10: `mark_sale_paid` changes only `status`, `payment_due_date`
and `payment_reminder_sent`; every other column of the row is unchanged. -/
theorem C10_markPaid_frame (s : Sale) :
    (markPaidSale s).status = "Pagado" ∧
    (markPaidSale s).payment_due_date = none ∧
    (markPaidSale s).payment_reminder_sent = false ∧
    (markPaidSale s).date = s.date ∧
    (markPaidSale s).client_id = s.client_id ∧
    (markPaidSale s).name = s.name ∧
    (markPaidSale s).product = s.product ∧
    (markPaidSale s).cost_per_unit = s.cost_per_unit ∧
    (markPaidSale s).price_per_unit = s.price_per_unit ∧
    (markPaidSale s).quantity = s.quantity ∧
    (markPaidSale s).total = s.total ∧
    (markPaidSale s).profit = s.profit ∧
    (markPaidSale s).comment = s.comment ∧
    (markPaidSale s).user_id = s.user_id := by
  refine ⟨rfl, rfl, rfl, rfl, rfl, rfl, rfl, rfl, rfl, rfl, rfl, rfl, rfl, rfl⟩

/-- Keys of the dict after one accumulation step: unchanged for an
existing key, the new key appended otherwise. -/
theorem addProfit_keys {α : Type} [DecidableEq α] (acc : List (α × ℚ)) (k : α) (p : ℚ) :
    (addProfit acc k p).map Prod.fst =
      if k ∈ acc.map Prod.fst then acc.map Prod.fst else acc.map Prod.fst ++ [k] := by
  induction acc with
  | nil => simp [addProfit]
  | cons kv rest ih =>
    obtain ⟨k₀, v⟩ := kv
    by_cases h : k₀ = k
    · subst h
      simp [addProfit]
    · by_cases hm : k ∈ rest.map Prod.fst <;>
        simp [addProfit, h, ih, hm, Ne.symm h]

/-- One accumulation step preserves key distinctness. -/
theorem addProfit_keys_nodup {α : Type} [DecidableEq α] {acc : List (α × ℚ)} (k : α) (p : ℚ)
    (hnd : (acc.map Prod.fst).Nodup) : ((addProfit acc k p).map Prod.fst).Nodup := by
  rw [addProfit_keys]
  split_ifs with h
  · exact hnd
  · simp [List.nodup_append, hnd, h]

/-- Key membership after one accumulation step. -/
theorem addProfit_keys_mem {α : Type} [DecidableEq α] (acc : List (α × ℚ)) (k : α) (p : ℚ)
    (j : α) : j ∈ (addProfit acc k p).map Prod.fst ↔ j ∈ acc.map Prod.fst ∨ j = k := by
  rw [addProfit_keys]
  split_ifs with h
  · constructor
    · exact Or.inl
    · rintro (hj | rfl)
      · exact hj
      · exact h
  · simp [List.mem_append]

/-- One accumulation step adds `p` to the sum of the stored values. -/
theorem addProfit_sumSnd {α : Type} [DecidableEq α] (acc : List (α × ℚ)) (k : α) (p : ℚ) :
    ((addProfit acc k p).map (fun x => x.2)).sum = (acc.map (fun x => x.2)).sum + p := by
  induction acc with
  | nil => simp [addProfit]
  | cons kv rest ih =>
    obtain ⟨k₀, v⟩ := kv
    by_cases h : k₀ = k <;> simp [addProfit, h, ih] <;> ring

/-- One accumulation step adds `p` to the value stored under the key and
leaves every other key's value unchanged. -/
theorem addProfit_assocValue {α : Type} [DecidableEq α] (acc : List (α × ℚ)) (k : α) (p : ℚ)
    (j : α) : assocValue (addProfit acc k p) j =
      assocValue acc j + if k = j then p else 0 := by
  induction acc with
  | nil => simp [addProfit, assocValue]
  | cons kv rest ih =>
    obtain ⟨k₀, v⟩ := kv
    by_cases h : k₀ = k
    · subst h
      by_cases hj : k₀ = j <;> simp [addProfit, assocValue, hj] <;> ring
    · simp only [addProfit, if_neg h, assocValue, ih]
      ring

/-- An absent key stores value 0. -/
theorem assocValue_eq_zero {α : Type} [DecidableEq α] (acc : List (α × ℚ)) (j : α)
    (h : j ∉ acc.map Prod.fst) : assocValue acc j = 0 := by
  induction acc with
  | nil => rfl
  | cons kv rest ih =>
    simp only [List.map_cons, List.mem_cons] at h
    push_neg at h
    simp [assocValue, Ne.symm h.1, ih h.2]

/-- With distinct keys, the value stored under a pair's key is the pair's
value. -/
theorem assocValue_of_mem {α : Type} [DecidableEq α] (acc : List (α × ℚ))
    (hnd : (acc.map Prod.fst).Nodup) (x : α × ℚ) (hx : x ∈ acc) :
    assocValue acc x.1 = x.2 := by
  induction acc with
  | nil => cases hx
  | cons kv rest ih =>
    rw [List.map_cons, List.nodup_cons] at hnd
    rcases List.mem_cons.mp hx with rfl | hx
    · simp [assocValue, assocValue_eq_zero rest x.1 hnd.1]
    · have hne : kv.1 ≠ x.1 := by
        intro hcontra
        exact hnd.1 (hcontra ▸ (List.mem_map.mpr ⟨x, hx, rfl⟩))
      simp [assocValue, hne, ih hnd.2 hx]

/-- Key set of the grouping loop: the starting keys plus one key per sale. -/
theorem groupProfitAux_keys_mem {α : Type} [DecidableEq α] (key : Sale → α)
    (sales : List Sale) (acc : List (α × ℚ)) (j : α) :
    j ∈ (groupProfitAux key sales acc).map Prod.fst ↔
      j ∈ acc.map Prod.fst ∨ j ∈ sales.map key := by
  induction sales generalizing acc with
  | nil => simp [groupProfitAux]
  | cons s rest ih =>
    rw [groupProfitAux, ih, addProfit_keys_mem]
    simp only [List.map_cons, List.mem_cons]
    tauto

/-- The grouping loop preserves key distinctness. -/
theorem groupProfitAux_keys_nodup {α : Type} [DecidableEq α] (key : Sale → α)
    (sales : List Sale) (acc : List (α × ℚ)) (hnd : (acc.map Prod.fst).Nodup) :
    ((groupProfitAux key sales acc).map Prod.fst).Nodup := by
  induction sales generalizing acc with
  | nil => exact hnd
  | cons s rest ih => exact ih _ (addProfit_keys_nodup _ _ hnd)

/-- The grouping loop adds the total profit of the processed sales to the
sum of the stored values. -/
theorem groupProfitAux_sumSnd {α : Type} [DecidableEq α] (key : Sale → α)
    (sales : List Sale) (acc : List (α × ℚ)) :
    ((groupProfitAux key sales acc).map (fun x => x.2)).sum =
      (acc.map (fun x => x.2)).sum + sumProfit sales := by
  induction sales generalizing acc with
  | nil => simp [groupProfitAux, sumProfit]
  | cons s rest ih =>
    rw [groupProfitAux, ih, addProfit_sumSnd]
    simp [sumProfit]
    ring

/-- The grouping loop adds, under each key, the summed profit of the
processed sales carrying that key. -/
theorem groupProfitAux_assocValue {α : Type} [DecidableEq α] (key : Sale → α)
    (sales : List Sale) (acc : List (α × ℚ)) (j : α) :
    assocValue (groupProfitAux key sales acc) j =
      assocValue acc j + sumProfit (sales.filter (fun s => key s = j)) := by
  induction sales generalizing acc with
  | nil => simp [groupProfitAux, sumProfit]
  | cons s rest ih =>
    rw [groupProfitAux, ih, addProfit_assocValue]
    by_cases h : key s = j <;> simp [List.filter_cons, h, sumProfit] <;> ring

/-- The grouped dict has pairwise-distinct keys. -/
theorem groupProfit_keys_nodup {α : Type} [DecidableEq α] (key : Sale → α)
    (sales : List Sale) : ((groupProfit key sales).map Prod.fst).Nodup :=
  groupProfitAux_keys_nodup key sales [] (by simp)

/-- The grouped dict's keys are exactly the keys of the input sales. -/
theorem groupProfit_keys_mem {α : Type} [DecidableEq α] (key : Sale → α)
    (sales : List Sale) (j : α) :
    j ∈ (groupProfit key sales).map Prod.fst ↔ j ∈ sales.map key := by
  rw [groupProfit, groupProfitAux_keys_mem]
  simp

/-- Summing the grouped values recovers the total profit. -/
theorem groupProfit_sumSnd {α : Type} [DecidableEq α] (key : Sale → α)
    (sales : List Sale) :
    ((groupProfit key sales).map (fun x => x.2)).sum = sumProfit sales := by
  rw [groupProfit, groupProfitAux_sumSnd]
  simp

/-- Each grouped pair stores the summed profit of the sales with its key. -/
theorem groupProfit_value {α : Type} [DecidableEq α] (key : Sale → α)
    (sales : List Sale) (x : α × ℚ) (hx : x ∈ groupProfit key sales) :
    x.2 = sumProfit (sales.filter (fun s => key s = x.1)) := by
  have h1 := assocValue_of_mem _ (groupProfit_keys_nodup key sales) x hx
  have h2 := groupProfitAux_assocValue key sales [] x.1
  rw [groupProfit] at h1
  rw [h1] at h2
  simpa [assocValue] using h2

/-- The number of groups is the number of distinct keys among the sales. -/
theorem groupProfit_length {α : Type} [DecidableEq α] (key : Sale → α)
    (sales : List Sale) :
    (groupProfit key sales).length = (sales.map key).dedup.length := by
  have hperm : List.Perm ((groupProfit key sales).map Prod.fst) ((sales.map key).dedup) := by
    refine (List.perm_ext_iff_of_nodup (groupProfit_keys_nodup key sales)
      (sales.map key).nodup_dedup).mpr ?_
    intro a
    rw [groupProfit_keys_mem, List.mem_dedup]
  calc (groupProfit key sales).length
      = ((groupProfit key sales).map Prod.fst).length := (List.length_map _ _).symm
    _ = (sales.map key).dedup.length := hperm.length_eq

/-- Stability of the descending profit sort: the pairs carrying any given
profit value keep their first-encountered relative order. -/
theorem insertionSort_byProfitDesc_stable (items : List (String × ℚ)) (v : ℚ) :
    (List.insertionSort byProfitDesc items).filter (fun x => x.2 = v) =
      items.filter (fun x => x.2 = v) := by
  have hpw : (items.filter (fun x => x.2 = v)).Pairwise byProfitDesc := by
    refine List.pairwise_of_forall_mem_list ?_
    intro a ha b hb
    have ha2 : a.2 = v := by simpa using List.of_mem_filter ha
    have hb2 : b.2 = v := by simpa using List.of_mem_filter hb
    unfold byProfitDesc
    rw [ha2, hb2]
  have h1 : List.Sublist (items.filter (fun x => x.2 = v))
      (List.insertionSort byProfitDesc items) :=
    List.sublist_insertionSort hpw (List.filter_sublist items)
  have h3 : List.Sublist (items.filter (fun x => x.2 = v))
      ((List.insertionSort byProfitDesc items).filter (fun x => x.2 = v)) := by
    simpa [List.filter_filter] using h1.filter (fun x => decide (x.2 = v))
  have hperm : List.Perm
      ((List.insertionSort byProfitDesc items).filter (fun x => x.2 = v))
      (items.filter (fun x => x.2 = v)) :=
    (List.perm_insertionSort byProfitDesc items).filter _
  exact (h3.eq_of_length hperm.length_eq.symm).symm

/-- Claim C7: the top-products computation returns `min 5 d` pairs where
`d` is the number of distinct products, in non-increasing order of summed
profit, each pair carrying the summed profit of its product, ties keeping
first-encountered order (Python's `sorted` is stable), and the chart rows
are exactly the first and (rounded) second components. -/
theorem C7_top_products (sales : List Sale) :
    (topItems sales).length =
        min 5 ((sales.map (fun s => s.product)).dedup.length) ∧
    List.Sorted byProfitDesc (topItems sales) ∧
    (∀ v : ℚ, (List.insertionSort byProfitDesc
          (groupProfit (fun s => s.product) sales)).filter (fun x => x.2 = v) =
        (groupProfit (fun s => s.product) sales).filter (fun x => x.2 = v)) ∧
    (∀ x ∈ groupProfit (fun s => s.product) sales,
        x.2 = sumProfit (sales.filter (fun s => s.product = x.1))) ∧
    top_labels sales = (topItems sales).map (fun x => x.1) ∧
    top_values sales = (topItems sales).map (fun x => round2 x.2) := by
  refine ⟨?_, ?_, ?_, ?_, rfl, rfl⟩
  · rw [topItems, List.length_take, List.length_insertionSort, groupProfit_length]
  · have hs := List.sorted_insertionSort byProfitDesc
      (groupProfit (fun s => s.product) sales)
    exact hs.sublist (List.take_sublist 5 _)
  · intro v
    exact insertionSort_byProfitDesc_stable _ v
  · intro x hx
    exact groupProfit_value _ sales x hx

/-- Concrete instantiation of C7 on the demo ledger (a single product). -/
theorem C7_witness :
    (topItems demoSales).length =
        min 5 ((demoSales.map (fun s => s.product)).dedup.length) ∧
    ∀ x ∈ groupProfit (fun s => s.product) demoSales,
        x.2 = sumProfit (demoSales.filter (fun s => s.product = x.1)) :=
  ⟨(C7_top_products demoSales).1, (C7_top_products demoSales).2.2.2.1⟩

/-- Zero is a whole number of cents. -/
theorem isCent_zero : IsCent 0 := ⟨0, by norm_num⟩

/-- Whole numbers of cents are closed under addition. -/
theorem isCent_add {a b : ℚ} (ha : IsCent a) (hb : IsCent b) : IsCent (a + b) := by
  obtain ⟨m, rfl⟩ := ha
  obtain ⟨n, rfl⟩ := hb
  refine ⟨m + n, ?_⟩
  push_cast
  ring

/-- A sum of cent-valued profits is cent-valued. -/
theorem isCent_sumProfit (l : List Sale) (h : ∀ s ∈ l, IsCent s.profit) :
    IsCent (sumProfit l) := by
  induction l with
  | nil => exact isCent_zero
  | cons s rest ih =>
    have hstep : sumProfit (s :: rest) = s.profit + sumProfit rest := by
      simp [sumProfit]
    rw [hstep]
    exact isCent_add (h s (List.mem_cons_self s rest))
      (ih fun x hx => h x (List.mem_cons_of_mem _ hx))

/-- Rounding to two decimals is the identity on whole numbers of cents. -/
theorem round2_isCent {q : ℚ} (h : IsCent q) : round2 q = q := by
  obtain ⟨n, rfl⟩ := h
  have h100 : ((n : ℚ) / 100) * 100 = (n : ℚ) := by
    field_simp
  have hfl : ⌊((n : ℚ))⌋ = n := Int.floor_intCast n
  simp only [round2, h100, hfl]
  norm_num

/-- Claim C6 as amended: the weekly profit series has pairwise-distinct
keys, lexicographically sorted, each key produced by the ISO-week format
from some entry's date; and since the chart values are the per-week sums
rounded to two decimals, the values add up to the total profit whenever
every profit is a whole number of cents. -/
theorem C6_weekly_series (sales : List Sale) (h : ∀ s ∈ sales, IsCent s.profit) :
    (week_labels sales).Nodup ∧
    List.Sorted (fun a b : String => a ≤ b) (week_labels sales) ∧
    (∀ k ∈ week_labels sales, ∃ s ∈ sales, k = weekKey s.date) ∧
    (week_values sales).sum = sumProfit sales := by
  have hperm : List.Perm (weeksSorted sales)
      (groupProfit (fun s => weekKey s.date) sales) :=
    List.perm_insertionSort byKeyAsc _
  refine ⟨?_, ?_, ?_, ?_⟩
  · have hnd := groupProfit_keys_nodup (fun s => weekKey s.date) sales
    exact ((hperm.map Prod.fst).nodup_iff).mpr hnd
  · have hs := List.sorted_insertionSort byKeyAsc
      (groupProfit (fun s => weekKey s.date) sales)
    exact List.Pairwise.map _ (fun a b hab => hab) hs
  · intro k hk
    have hk1 : k ∈ (groupProfit (fun s => weekKey s.date) sales).map Prod.fst :=
      ((hperm.map Prod.fst).mem_iff).mp hk
    have hk2 : k ∈ sales.map (fun s => weekKey s.date) :=
      (groupProfit_keys_mem _ _ _).mp hk1
    obtain ⟨s, hs, rfl⟩ := List.mem_map.mp hk2
    exact ⟨s, hs, rfl⟩
  · have hvals : ∀ x ∈ weeksSorted sales, round2 x.2 = x.2 := by
      intro x hx
      have hxg : x ∈ groupProfit (fun s => weekKey s.date) sales := hperm.subset hx
      refine round2_isCent ?_
      rw [groupProfit_value _ sales x hxg]
      exact isCent_sumProfit _ (fun s hs => h s (List.mem_of_mem_filter hs))
    show ((weeksSorted sales).map (fun x => round2 x.2)).sum = sumProfit sales
    rw [List.map_congr_left hvals]
    rw [(hperm.map (fun x => x.2)).sum_eq]
    exact groupProfit_sumSnd _ sales

/-- Concrete instantiation of C6 on cent-valued profits 50, -10, 30. -/
theorem C6_witness :
    (∀ s ∈ demoSales, IsCent s.profit) ∧
      (week_values demoSales).sum = sumProfit demoSales := by
  have hc : ∀ s ∈ demoSales, IsCent s.profit := by
    intro s hs
    simp only [demoSales, List.mem_cons, List.not_mem_nil, or_false] at hs
    rcases hs with rfl | rfl | rfl
    · exact ⟨5000, by norm_num [plainSale]⟩
    · exact ⟨-1000, by norm_num [plainSale]⟩
    · exact ⟨3000, by norm_num [plainSale]⟩
  exact ⟨hc, (C6_weekly_series demoSales hc).2.2.2⟩

/-- Claim C6 fails on the code as stated: the returned weekly values are
rounded to two decimals (src/app.py line 1182), so a single entry with
profit 1/8 yields the value 0.12 and the value sum differs from the
profit sum. -/
theorem C6_counterexample :
    (week_values [centCounterSale]).sum ≠ sumProfit [centCounterSale] := by
  have h1 : week_values [centCounterSale] = [round2 (1 / 8)] := by
    simp [week_values, weeksSorted, groupProfit, groupProfitAux, addProfit,
      centCounterSale, plainSale]
  have h2 : round2 (1 / 8) = 3 / 25 := by
    have ha : ((1 : ℚ) / 8) * 100 = 25 / 2 := by norm_num
    have hb : ⌊(25 : ℚ) / 2⌋ = 12 := by norm_num
    simp only [round2, ha, hb]
    norm_num
  rw [h1, h2]
  simp [sumProfit, centCounterSale, plainSale]
  norm_num

/-- The classification loop computes exactly the two filters: effective
due date strictly before today, and otherwise within two days. -/
theorem classifyPending_eq (today : Date) (l : List Sale) :
    classifyPending today l =
      (l.filter (fun s => toordinal (dueOrDate s) < toordinal today),
       l.filter (fun s => ¬ toordinal (dueOrDate s) < toordinal today ∧
          toordinal (dueOrDate s) ≤ toordinal today + 2)) := by
  induction l with
  | nil => rfl
  | cons s rest ih =>
    simp only [classifyPending, ih, List.filter_cons]
    by_cases h1 : toordinal (dueOrDate s) < toordinal today
    · simp [h1]
    · by_cases h2 : toordinal (dueOrDate s) ≤ toordinal today + 2 <;> simp [h1, h2]

/-- Claim C5 as amended: the alert scan classifies a pending sale by its
effective due date (the sale date when the explicit due date is null),
sums the `total` column, emits the danger alert exactly when some sale is
overdue, emits the warning alert exactly when some sale is upcoming and
none is overdue, and emits nothing when both sets are empty. -/
theorem C5_alerts_characterization (sales : List Sale) (today : Date) :
    classifyPending today (pendingOf sales) =
        (overdueOf sales today, upcomingOf sales today) ∧
    ((∃ a ∈ pendingAlerts sales today, a.level = "danger") ↔
        overdueOf sales today ≠ []) ∧
    ((∃ a ∈ pendingAlerts sales today, a.level = "warning") ↔
        upcomingOf sales today ≠ [] ∧ overdueOf sales today = []) ∧
    (pendingAlerts sales today = [] ↔
        overdueOf sales today = [] ∧ upcomingOf sales today = []) ∧
    (∀ a ∈ pendingAlerts sales today, a.level = "danger" →
        a.count = (overdueOf sales today).length ∧
          a.amount = sumTotal (overdueOf sales today)) := by
  have hcl : classifyPending today (pendingOf sales) =
      (overdueOf sales today, upcomingOf sales today) := by
    rw [classifyPending_eq]
    rfl
  have halerts : pendingAlerts sales today =
      (if overdueOf sales today ≠ [] then
          [{ level := "danger", title := "Pagos vencidos",
             count := (overdueOf sales today).length,
             amount := sumTotal (overdueOf sales today) : Alert }]
        else []) ++
      (if upcomingOf sales today ≠ [] ∧ overdueOf sales today = [] then
          [{ level := "warning", title := "Pagos próximos a vencer",
             count := (upcomingOf sales today).length,
             amount := sumTotal (upcomingOf sales today) : Alert }]
        else []) := by
    have hcl2 := hcl
    simp only [pendingOf] at hcl2
    unfold pendingAlerts
    simp only [hcl2]
  refine ⟨hcl, ?_, ?_, ?_, ?_⟩ <;>
    rcases eq_or_ne (overdueOf sales today) [] with ho | ho <;>
      rcases eq_or_ne (upcomingOf sales today) [] with hu | hu <;>
        simp [halerts, ho, hu]

/-- Claim C5 fails on the code as stated: a pending sale with a NULL due
date entered the day before still triggers the danger alert, because the
scan falls back to the sale date (line 1208); with a null due date the
claim's overdue and upcoming sets are empty and no alert should exist.
The emitted amount also sums the `total` column. -/
theorem C5_counterexample :
    demoOverdueNoDue.payment_due_date = none ∧
    demoOverdueNoDue.status = "Pendiente" ∧
    pendingAlerts [demoOverdueNoDue] ⟨2024, 3, 15⟩ =
      [{ level := "danger", title := "Pagos vencidos", count := 1, amount := 100 }] := by
  refine ⟨rfl, rfl, ?_⟩
  have hd1 : toordinal ⟨2024, 3, 14⟩ = 738959 := by
    norm_num [toordinal, daysBeforeYear, daysBeforeMonth, isLeap]
  have hd2 : toordinal ⟨2024, 3, 15⟩ = 738960 := by
    norm_num [toordinal, daysBeforeYear, daysBeforeMonth, isLeap]
  simp [pendingAlerts, classifyPending, dueOrDate, demoOverdueNoDue, plainSale,
    sumTotal, hd1, hd2]

/-- Claim C9 as amended: for any requested range the dashboard's average
daily profit divides the filtered profit total by the number of distinct
dates actually present among the filtered entries (`max`-ed with 1); the
range length never enters the denominator. -/
theorem C9_avg_daily_profit (sales : List Sale) (d_from d_to : Option Date) :
    dashboardAvgDailyProfit sales d_from d_to =
      sumProfit (filterByRange sales d_from d_to) /
        ((max (num_dias (filterByRange sales d_from d_to)) 1 : ℕ) : ℚ) ∧
    num_dias (filterByRange sales d_from d_to) =
      ((filterByRange sales d_from d_to).map (fun s => s.date)).dedup.length := by
  have hlen : num_dias (filterByRange sales d_from d_to) =
      ((filterByRange sales d_from d_to).map (fun s => s.date)).dedup.length :=
    groupProfit_length _ _
  refine ⟨?_, hlen⟩
  unfold dashboardAvgDailyProfit avg_daily_profit
  by_cases h : 0 < num_dias (filterByRange sales d_from d_to)
  · rw [if_pos h,
      max_eq_left (by omega : 1 ≤ num_dias (filterByRange sales d_from d_to))]
  · rw [if_neg h]
    have h0 : num_dias (filterByRange sales d_from d_to) = 0 := by omega
    have hd : ((filterByRange sales d_from d_to).map (fun s => s.date)).dedup = [] :=
      List.length_eq_zero.mp (hlen ▸ h0)
    have hmap : (filterByRange sales d_from d_to).map (fun s => s.date) = [] :=
      (List.dedup_eq_nil _).mp hd
    have hnil : filterByRange sales d_from d_to = [] := List.map_eq_nil_iff.mp hmap
    rw [hnil]
    simp [sumProfit]

/-- Claim C9 fails on the code as stated: one sale of profit 6 on the
first day of the requested three-day range gives 6 (denominator: one
distinct date present), not 2 (denominator: range length 3). -/
theorem C9_counterexample :
    dashboardAvgDailyProfit [c9Sale] (some ⟨2024, 1, 1⟩) (some ⟨2024, 1, 3⟩) = 6 ∧
    specAvgDailyProfit [c9Sale] ⟨2024, 1, 1⟩ ⟨2024, 1, 3⟩ = 2 ∧
    (6 : ℚ) ≠ 2 := by
  have hd1 : toordinal ⟨2024, 1, 1⟩ = 738886 := by
    norm_num [toordinal, daysBeforeYear, daysBeforeMonth, isLeap]
  have hd3 : toordinal ⟨2024, 1, 3⟩ = 738888 := by
    norm_num [toordinal, daysBeforeYear, daysBeforeMonth, isLeap]
  refine ⟨?_, ?_, by norm_num⟩
  · simp [dashboardAvgDailyProfit, filterByRange, avg_daily_profit, num_dias,
      groupProfit, groupProfitAux, addProfit, sumProfit, c9Sale, plainSale, hd1, hd3]
  · simp [specAvgDailyProfit, sumProfit, c9Sale, plainSale, hd1, hd3]
    norm_num

/-- Concrete instantiation of C5's amended characterization. -/
theorem C5_witness :
    classifyPending ⟨2024, 3, 15⟩ (pendingOf [demoOverdueNoDue]) =
      (overdueOf [demoOverdueNoDue] ⟨2024, 3, 15⟩,
        upcomingOf [demoOverdueNoDue] ⟨2024, 3, 15⟩) ∧
    (pendingAlerts [demoOverdueNoDue] ⟨2024, 3, 15⟩ = [] ↔
      overdueOf [demoOverdueNoDue] ⟨2024, 3, 15⟩ = [] ∧
        upcomingOf [demoOverdueNoDue] ⟨2024, 3, 15⟩ = []) :=
  ⟨(C5_alerts_characterization [demoOverdueNoDue] ⟨2024, 3, 15⟩).1,
    (C5_alerts_characterization [demoOverdueNoDue] ⟨2024, 3, 15⟩).2.2.2.1⟩

/-- Concrete instantiation of C9's amended statement. -/
theorem C9_witness :
    dashboardAvgDailyProfit [c9Sale] none none =
      sumProfit (filterByRange [c9Sale] none none) /
        ((max (num_dias (filterByRange [c9Sale] none none)) 1 : ℕ) : ℚ) :=
  (C9_avg_daily_profit [c9Sale] none none).1
